import Mathlib

/-!
Shallow embedding of the 8086 disassembler in `src/src/main.rs` of
g-thome/disassembler-for-8086, together with theorems checking the
natural-language specification against it.

Modelling conventions:
* a `Vec<u8>` byte buffer is a `List Nat`; reading `bytes[i]` goes through
  `readByte`, which reduces the stored value `% 256` (the `u8` type invariant)
  and turns the Rust out-of-bounds panic into `DecodeErr.indexOutOfBounds`;
* Rust panics (`expect`, `panic!`, index out of bounds) become `Except.error`
  values, so an aborted pass produces no partial listing, as in the source;
* `i16` values are `Int`, `u16`/`u8` values are `Nat`; `from_ne_bytes` is
  modelled with the little-endian semantics it has on the 8086-era and
  current mainstream targets the program runs on;
* the `while cursor < bin.len()` loop is modelled with a fuel parameter
  (`bin.length` in `parse_bin`); running out of fuel yields the artificial
  error `DecodeErr.fuelOut`, proved unreachable for this fuel.
-/

/-- Errors of the modelled decode pass. All of them abort the whole pass. -/
inductive DecodeErr where
  | indexOutOfBounds : DecodeErr
  | unrecognizedOpcode (message : String) : DecodeErr
  | unimplementedOp : DecodeErr
  | panicked : DecodeErr
  | fuelOut : DecodeErr
  deriving DecidableEq

/-- Reading `bytes[i]` from a `Vec<u8>`: out of bounds panics; a stored
value is a `u8`, hence reduced `% 256`. -/
def readByte (bytes : List Nat) (i : Nat) : Except DecodeErr Nat :=
  match bytes.get? i with
  | some b => .ok (b % 256)
  | none => .error .indexOutOfBounds

/-- `BYTE_REGISTERS` from the source. -/
def BYTE_REGISTERS : List String := ["al", "cl", "dl", "bl", "ah", "ch", "dh", "bh"]

/-- `WORD_REGISTERS` from the source. -/
def WORD_REGISTERS : List String := ["ax", "cx", "dx", "bx", "sp", "bp", "si", "di"]

/-- `REGISTER_ENCODINGS` from the source. -/
def REGISTER_ENCODINGS : List (List String) := [BYTE_REGISTERS, WORD_REGISTERS]

/-- `RM_ADDRESS_CALCULATION_ENCODINGS` from the source. -/
def RM_ADDRESS_CALCULATION_ENCODINGS : List String :=
  ["[bx + si]", "[bx + di]", "[bp + si]", "[bp + di]", "[si]", "[di]", "[bp]", "[bx]"]

/-- `u16::from_ne_bytes([lo, hi])` on a little-endian target. -/
def u16_from_le (lo hi : Nat) : Nat := lo + 256 * hi

/-- `i16::from_ne_bytes([lo, hi])` on a little-endian target. -/
def i16_from_le (lo hi : Nat) : Int :=
  if lo + 256 * hi < 32768 then ((lo + 256 * hi : Nat) : Int)
  else ((lo + 256 * hi : Nat) : Int) - 65536

/-- The inline 8-bit displacement sign-extension block the source repeats at
four call sites: test bit 7, and if set compute `(disp_lo.wrapping_neg() as
i16) * -1`. Callers always pass a value `< 256`. -/
def displacement_from_byte (b : Nat) : Int :=
  if (b >>> 7) &&& 0x1 = 1 then -(((256 - b : Nat) : Int))
  else ((b : Nat) : Int)

/-- Rust `as i8` cast of a byte value (used by `parse_immediate_to_accumulator`). -/
def i8_cast (b : Nat) : Int :=
  if b % 256 < 128 then ((b % 256 : Nat) : Int) else ((b % 256 : Nat) : Int) - 256

/-- `rm_address_calculation_displaced` from the source. Note the source
computes the sign as `if displacement > &1 { "+" } else { "-" }`.
The source's `displacement.abs()` on `i16` is modelled by `Int.natAbs`
(the two differ only at `-32768`, where the Rust debug build panics). -/
def rm_address_calculation_displaced (rm_bits : Nat) (displacement : Int) : String :=
  let sign := if displacement > 1 then "+" else "-"
  let abs_displacement := displacement.natAbs
  match rm_bits with
  | 0 => "[bx + si " ++ sign ++ " " ++ toString abs_displacement ++ "]"
  | 1 => "[bx + di " ++ sign ++ " " ++ toString abs_displacement ++ "]"
  | 2 => "[bp + si " ++ sign ++ " " ++ toString abs_displacement ++ "]"
  | 3 => "[bp + di " ++ sign ++ " " ++ toString abs_displacement ++ "]"
  | 4 => "[si " ++ sign ++ " " ++ toString abs_displacement ++ "]"
  | 5 => "[di " ++ sign ++ " " ++ toString abs_displacement ++ "]"
  | 6 => "[bp " ++ sign ++ " " ++ toString abs_displacement ++ "]"
  | 7 => "[bx " ++ sign ++ " " ++ toString abs_displacement ++ "]"
  | _ => ""

/-- The `Opcode` enum from the source. -/
inductive Opcode where
  | MovRegisterOrMemoryToOrFromRegister
  | MovImmediateToRegisterOrMemory
  | MovImmediateToRegister
  | MovMemoryToAccumulator
  | MovAccumulatorToMemory
  | MovRegisterOrMemoryToSegmentRegister
  | MovSegmentRegisterToRegisterOrMemory
  | AddRegisterOrMemoryWithRegisterToEither
  | AddImmediateToRegisterOrMemory
  | AddImmediateToAccumulator
  | SubRegisterOrMemoryWithRegisterToEither
  | SubImmediateToRegisterOrMemory
  | SubImmediateToAccumulator
  | CmpRegisterOrMemoryAndRegister
  | CmpImmediateWithRegisterOrMemory
  | CmpImmediateWithAccumulator
  deriving DecidableEq

/-- `as_opcode_enum` from the source: an ordered chain of early returns.
The three guarded returns for the `0x80..0x83` group fall through to the
later unconditional `bytes[0] >> 2 == 0b100000` check, exactly as in the
source. -/
def as_opcode_enum (b0 b1 : Nat) : Option Opcode :=
  if b0 >>> 2 = 0b100010 then some .MovRegisterOrMemoryToOrFromRegister
  else if b0 >>> 1 = 0b1100011 then some .MovImmediateToRegisterOrMemory
  else if b0 >>> 4 = 0b1011 then some .MovImmediateToRegister
  else if b0 >>> 1 = 0b1010000 then some .MovMemoryToAccumulator
  else if b0 >>> 1 = 0b1010001 then some .MovAccumulatorToMemory
  else if b0 = 0b10001110 then some .MovRegisterOrMemoryToSegmentRegister
  else if b0 = 0b10001100 then some .MovSegmentRegisterToRegisterOrMemory
  else if b0 >>> 2 = 0b000000 then some .AddRegisterOrMemoryWithRegisterToEither
  else if b0 >>> 2 = 0b100000 ∧ (b1 >>> 3) &&& 0x7 = 0b101 then
    some .SubImmediateToRegisterOrMemory
  else if b0 >>> 2 = 0b100000 ∧ (b1 >>> 3) &&& 0x7 = 0b111 then
    some .CmpImmediateWithRegisterOrMemory
  else if b0 >>> 2 = 0b100000 ∧ (b1 >>> 3) &&& 0x7 = 0b000 then
    some .AddImmediateToRegisterOrMemory
  else if b0 >>> 1 = 0b0000010 then some .AddImmediateToAccumulator
  else if b0 >>> 2 = 0b001010 then some .SubRegisterOrMemoryWithRegisterToEither
  else if b0 >>> 2 = 0b100000 then some .SubImmediateToRegisterOrMemory
  else if b0 >>> 1 = 0b0010110 then some .SubImmediateToAccumulator
  else if b0 >>> 2 = 0b001110 then some .CmpRegisterOrMemoryAndRegister
  else if b0 >>> 1 = 0b0011110 then some .CmpImmediateWithAccumulator
  else none

/-- `parse_register_or_memory_to_or_from_register` from the source. The
mutable cursor is threaded explicitly: the result carries the updated
cursor. -/
def parse_register_or_memory_to_or_from_register (bytes : List Nat) (cursor : Nat) :
    Except DecodeErr (String × Nat) :=
  match readByte bytes cursor, readByte bytes (cursor + 1) with
  | .error e, _ => .error e
  | _, .error e => .error e
  | .ok first_byte, .ok second_byte =>
    let d_bit := (first_byte >>> 1) &&& 0x1
    let w_bit := first_byte &&& 0x1
    let md := second_byte >>> 6
    let register_bits := (second_byte >>> 3) &&& 0x7
    let rm_bits := second_byte &&& 0x7
    let register := (REGISTER_ENCODINGS.getD w_bit []).getD register_bits ""
    let rmc : Except DecodeErr (String × Nat) :=
      if md = 0 then
        if rm_bits ≠ 6 then
          .ok (RM_ADDRESS_CALCULATION_ENCODINGS.getD rm_bits "", cursor + 2)
        else if w_bit = 0 then
          match readByte bytes (cursor + 2) with
          | .error e => .error e
          | .ok disp_lo =>
            .ok ("[" ++ toString (displacement_from_byte disp_lo) ++ "]", cursor + 3)
        else
          match readByte bytes (cursor + 2), readByte bytes (cursor + 3) with
          | .error e, _ => .error e
          | _, .error e => .error e
          | .ok disp_lo, .ok disp_hi =>
            .ok ("[" ++ toString (i16_from_le disp_lo disp_hi) ++ "]", cursor + 4)
      else if md = 1 then
        match readByte bytes (cursor + 2) with
        | .error e => .error e
        | .ok disp_lo =>
          .ok (rm_address_calculation_displaced rm_bits (displacement_from_byte disp_lo),
            cursor + 3)
      else if md = 2 then
        match readByte bytes (cursor + 2), readByte bytes (cursor + 3) with
        | .error e, _ => .error e
        | _, .error e => .error e
        | .ok disp_lo, .ok disp_hi =>
          .ok (rm_address_calculation_displaced rm_bits (i16_from_le disp_lo disp_hi),
            cursor + 4)
      else if md = 3 then
        .ok ((REGISTER_ENCODINGS.getD w_bit []).getD rm_bits "", cursor + 2)
      else .ok ("", cursor + 2)
    match rmc with
    | .error e => .error e
    | .ok (rm, cursor2) =>
      let destination := if d_bit = 1 then register else rm
      let source := if d_bit = 1 then rm else register
      let operation :=
        if first_byte >>> 2 = 0b10010 then "mov"
        else if first_byte >>> 2 = 0b0 then "add"
        else if first_byte >>> 2 = 0b001010 then "sub"
        else if first_byte >>> 2 = 0b001110 then "cmp"
        else ""
      .ok (operation ++ " " ++ destination ++ ", " ++ source, cursor2)

/-- `parse_immediate_to_register` from the source. -/
def parse_immediate_to_register (bytes : List Nat) (cursor : Nat) :
    Except DecodeErr (String × Nat) :=
  match readByte bytes cursor, readByte bytes (cursor + 1) with
  | .error e, _ => .error e
  | _, .error e => .error e
  | .ok first_byte, .ok data_lo =>
    let w_bit := (first_byte >>> 3) &&& 0x1
    let register_bits := first_byte &&& 0x07
    if w_bit = 1 then
      match readByte bytes (cursor + 2) with
      | .error e => .error e
      | .ok data_hi =>
        let immediate := u16_from_le data_lo data_hi
        let register := WORD_REGISTERS.getD register_bits ""
        .ok ("mov " ++ register ++ ", " ++ toString immediate, cursor + 3)
    else
      let immediate := data_lo
      let register := BYTE_REGISTERS.getD register_bits ""
      .ok ("mov " ++ register ++ ", " ++ toString immediate, cursor + 2)

/-- `parse_immediate_to_register_or_memory` from the source. Note the `mov`
test `first_byte >> 2 == 0b100010` and the `_ => panic!()` arm of the mod
match are reproduced verbatim. -/
def parse_immediate_to_register_or_memory (bytes : List Nat) (cursor : Nat) :
    Except DecodeErr (String × Nat) :=
  match readByte bytes cursor, readByte bytes (cursor + 1) with
  | .error e, _ => .error e
  | _, .error e => .error e
  | .ok first_byte, .ok second_byte =>
    let w_bit := first_byte &&& 0x1
    let md := (second_byte >>> 6) &&& 0x03
    let rm_bits := second_byte &&& 0x07
    let rmc : Except DecodeErr (String × Nat) :=
      if md = 0 then
        if rm_bits ≠ 6 then
          .ok (RM_ADDRESS_CALCULATION_ENCODINGS.getD rm_bits "", cursor + 2)
        else if w_bit = 0 then
          match readByte bytes (cursor + 2) with
          | .error e => .error e
          | .ok disp_lo =>
            .ok ("[" ++ toString (displacement_from_byte disp_lo) ++ "]", cursor + 3)
        else
          match readByte bytes (cursor + 2), readByte bytes (cursor + 3) with
          | .error e, _ => .error e
          | _, .error e => .error e
          | .ok disp_lo, .ok disp_hi =>
            .ok ("[" ++ toString (i16_from_le disp_lo disp_hi) ++ "]", cursor + 4)
      else if md = 1 then
        match readByte bytes (cursor + 2) with
        | .error e => .error e
        | .ok disp_lo =>
          .ok (rm_address_calculation_displaced rm_bits (displacement_from_byte disp_lo),
            cursor + 3)
      else if md = 2 then
        match readByte bytes (cursor + 2), readByte bytes (cursor + 3) with
        | .error e, _ => .error e
        | _, .error e => .error e
        | .ok disp_lo, .ok disp_hi =>
          .ok (rm_address_calculation_displaced rm_bits (i16_from_le disp_lo disp_hi),
            cursor + 4)
      else if md = 3 then
        if w_bit = 1 then .ok (WORD_REGISTERS.getD rm_bits "", cursor + 2)
        else .ok (BYTE_REGISTERS.getD rm_bits "", cursor + 2)
      else .error .panicked
    match rmc with
    | .error e => .error e
    | .ok (rm, cursor2) =>
      let register_bits := (second_byte >>> 3) &&& 0x7
      let operation :=
        if first_byte >>> 2 = 0b100010 then "mov"
        else if first_byte >>> 2 = 0b100000 ∧ register_bits = 0b0 then "add"
        else if first_byte >>> 2 = 0b100000 ∧ register_bits = 0b101 then "sub"
        else if first_byte >>> 2 = 0b100000 ∧ register_bits = 0b111 then "cmp"
        else ""
      let size := if w_bit = 1 then "word" else "byte"
      let immc : Except DecodeErr (Nat × Nat) :=
        if operation = "mov" then
          if w_bit = 1 then
            match readByte bytes cursor2, readByte bytes (cursor2 + 1) with
            | .error e, _ => .error e
            | _, .error e => .error e
            | .ok data_lo, .ok data_hi => .ok (u16_from_le data_lo data_hi, cursor2 + 2)
          else
            match readByte bytes cursor2 with
            | .error e => .error e
            | .ok data_lo => .ok (data_lo, cursor2 + 1)
        else
          let s_bit := (first_byte >>> 1) &&& 0x1
          if w_bit = 1 ∧ s_bit = 0 then
            match readByte bytes cursor2, readByte bytes (cursor2 + 1) with
            | .error e, _ => .error e
            | _, .error e => .error e
            | .ok data_lo, .ok data_hi => .ok (u16_from_le data_lo data_hi, cursor2 + 2)
          else
            match readByte bytes cursor2 with
            | .error e => .error e
            | .ok data_lo => .ok (data_lo, cursor2 + 1)
      match immc with
      | .error e => .error e
      | .ok (immediate, cursor3) =>
        if first_byte >>> 2 = 0b100010 then
          .ok ("mov " ++ rm ++ ", " ++ size ++ " " ++ toString immediate, cursor3)
        else if first_byte >>> 2 = 0b100000 ∧ register_bits = 0b0 then
          .ok ("add " ++ size ++ " " ++ rm ++ ", " ++ toString immediate, cursor3)
        else if first_byte >>> 2 = 0b100000 ∧ register_bits = 0b101 then
          .ok ("sub " ++ size ++ " " ++ rm ++ ", " ++ toString immediate, cursor3)
        else if first_byte >>> 2 = 0b100000 ∧ register_bits = 0b111 then
          .ok ("cmp " ++ size ++ " " ++ rm ++ ", " ++ toString immediate, cursor3)
        else .ok ("", cursor3)

/-- `parse_memory_to_accumulator` from the source. -/
def parse_memory_to_accumulator (bytes : List Nat) (cursor : Nat) :
    Except DecodeErr (String × Nat) :=
  match readByte bytes cursor with
  | .error e => .error e
  | .ok first_byte =>
    let w_bit := first_byte &&& 0x1
    if w_bit = 1 then
      match readByte bytes (cursor + 1), readByte bytes (cursor + 2) with
      | .error e, _ => .error e
      | _, .error e => .error e
      | .ok addr_lo, .ok addr_hi =>
        .ok ("mov ax, [" ++ toString (u16_from_le addr_lo addr_hi) ++ "]", cursor + 3)
    else
      match readByte bytes (cursor + 1) with
      | .error e => .error e
      | .ok addr_lo => .ok ("mov al, [" ++ toString addr_lo ++ "]", cursor + 2)

/-- `parse_accumulator_to_memory` from the source. -/
def parse_accumulator_to_memory (bytes : List Nat) (cursor : Nat) :
    Except DecodeErr (String × Nat) :=
  match readByte bytes cursor with
  | .error e => .error e
  | .ok first_byte =>
    let w_bit := first_byte &&& 0x1
    if w_bit = 1 then
      match readByte bytes (cursor + 1), readByte bytes (cursor + 2) with
      | .error e, _ => .error e
      | _, .error e => .error e
      | .ok addr_lo, .ok addr_hi =>
        .ok ("mov [" ++ toString (u16_from_le addr_lo addr_hi) ++ "], ax", cursor + 3)
    else
      match readByte bytes (cursor + 1) with
      | .error e => .error e
      | .ok addr_lo => .ok ("mov [" ++ toString addr_lo ++ "], al", cursor + 2)

/-- `parse_immediate_to_accumulator` from the source. -/
def parse_immediate_to_accumulator (bytes : List Nat) (cursor : Nat) :
    Except DecodeErr (String × Nat) :=
  match readByte bytes cursor with
  | .error e => .error e
  | .ok first_byte =>
    let w_bit := first_byte &&& 0x1
    let operation :=
      if first_byte >>> 1 = 0b0010110 then "sub"
      else if first_byte >>> 1 = 0b0000010 then "add"
      else if first_byte >>> 1 = 0b0011110 then "cmp"
      else ""
    if w_bit = 1 then
      match readByte bytes (cursor + 1), readByte bytes (cursor + 2) with
      | .error e, _ => .error e
      | _, .error e => .error e
      | .ok lo, .ok hi =>
        .ok (operation ++ " ax, " ++ toString (u16_from_le lo hi), cursor + 3)
    else
      match readByte bytes (cursor + 1) with
      | .error e => .error e
      | .ok data => .ok (operation ++ " al, " ++ toString (i8_cast data), cursor + 2)

/-- The `{:0>8b}` binary rendering of a byte used in the unrecognized-opcode
panic message. -/
def toBinary8 (n : Nat) : String :=
  String.mk ((List.range 8).map (fun i => if n / 2 ^ (7 - i) % 2 = 1 then '1' else '0'))

/-- One iteration of the `while` loop in `parse_bin`: read the next two
bytes, classify, dispatch to the decoder for the matched format. The
`expect` on an unrecognized opcode and the `panic!("found unimplemented
op")` arm become distinct errors. -/
def decodeStep (bin : List Nat) (cursor : Nat) : Except DecodeErr (String × Nat) :=
  match readByte bin cursor, readByte bin (cursor + 1) with
  | .error e, _ => .error e
  | _, .error e => .error e
  | .ok b0, .ok b1 =>
    match as_opcode_enum b0 b1 with
    | none => .error (.unrecognizedOpcode ("Unrecognized opcode. " ++ toBinary8 b0))
    | some op =>
      match op with
      | .MovRegisterOrMemoryToOrFromRegister
      | .AddRegisterOrMemoryWithRegisterToEither
      | .SubRegisterOrMemoryWithRegisterToEither
      | .CmpRegisterOrMemoryAndRegister =>
        parse_register_or_memory_to_or_from_register bin cursor
      | .MovImmediateToRegister => parse_immediate_to_register bin cursor
      | .MovImmediateToRegisterOrMemory
      | .AddImmediateToRegisterOrMemory
      | .SubImmediateToRegisterOrMemory
      | .CmpImmediateWithRegisterOrMemory =>
        parse_immediate_to_register_or_memory bin cursor
      | .MovMemoryToAccumulator => parse_memory_to_accumulator bin cursor
      | .MovAccumulatorToMemory => parse_accumulator_to_memory bin cursor
      | .AddImmediateToAccumulator
      | .SubImmediateToAccumulator
      | .CmpImmediateWithAccumulator => parse_immediate_to_accumulator bin cursor
      | _ => .error .unimplementedOp

/-- The `while cursor < bin.len()` loop of `parse_bin`, with fuel; `none`
means the fuel ran out before the loop finished. Each iteration appends a
newline and the decoded line to the accumulator. -/
def parseBinAux (bin : List Nat) : Nat → Nat → String → Option (Except DecodeErr String)
  | 0, cursor, acc => if cursor < bin.length then none else some (.ok acc)
  | fuel + 1, cursor, acc =>
    if cursor < bin.length then
      match decodeStep bin cursor with
      | .error e => some (.error e)
      | .ok (line, cursor2) => parseBinAux bin fuel cursor2 (acc ++ "\n" ++ line)
    else some (.ok acc)

/-- `parse_bin` from the source: the full decode pass over a byte buffer,
starting from the fixed architecture header. Fuel `bin.length` is enough
because the cursor strictly increases every iteration (the fuel-exhaustion
default `DecodeErr.fuelOut` is proved unreachable). -/
def parse_bin (bin : List Nat) : Except DecodeErr String :=
  (parseBinAux bin bin.length 0 "bits 16\n\n").getD (.error .fuelOut)

/-! ### Helper lemmas about `readByte` -/

theorem readByte_cons0 (a : Nat) (l : List Nat) : readByte (a :: l) 0 = .ok (a % 256) := rfl

theorem readByte_cons1 (a b : Nat) (l : List Nat) : readByte (a :: b :: l) 1 = .ok (b % 256) := rfl

theorem readByte_cons2 (a b c : Nat) (l : List Nat) :
    readByte (a :: b :: c :: l) 2 = .ok (c % 256) := rfl

theorem readByte_cons3 (a b c d : Nat) (l : List Nat) :
    readByte (a :: b :: c :: d :: l) 3 = .ok (d % 256) := rfl

theorem readByte_cons4 (a b c d e : Nat) (l : List Nat) :
    readByte (a :: b :: c :: d :: e :: l) 4 = .ok (e % 256) := rfl

theorem readByte_cons5 (a b c d e f : Nat) (l : List Nat) :
    readByte (a :: b :: c :: d :: e :: f :: l) 5 = .ok (f % 256) := rfl

theorem readByte_error_eq {bytes : List Nat} {i : Nat} {e : DecodeErr}
    (h : readByte bytes i = .error e) : e = .indexOutOfBounds := by
  unfold readByte at h
  split at h
  · exact absurd h (by simp)
  · exact (Except.error.injEq _ _ ▸ h).symm

theorem readByte_ok_lt {bytes : List Nat} {i b : Nat}
    (h : readByte bytes i = .ok b) : i < bytes.length := by
  unfold readByte at h
  split at h
  · next b' hg => exact List.get?_eq_some.mp hg |>.1
  · exact absurd h (by simp)

theorem readByte_ok_lt256 {bytes : List Nat} {i b : Nat}
    (h : readByte bytes i = .ok b) : b < 256 := by
  unfold readByte at h
  split at h
  · next b' hg =>
    have : b' % 256 = b := by simpa using h
    omega
  · exact absurd h (by simp)

/-! ### Helper lemmas about strings -/

theorem sappend_assoc (a b c : String) : (a ++ b) ++ c = a ++ (b ++ c) := by
  cases a with | mk xs => cases b with | mk ys => cases c with | mk zs =>
  show String.mk ((xs ++ ys) ++ zs) = String.mk (xs ++ (ys ++ zs))
  rw [List.append_assoc]

theorem dash_space (x : String) : "-" ++ (" " ++ x) = "- " ++ x := by
  cases x with | mk l => rfl

theorem dash_shape (a m : String) :
    (((a ++ "-") ++ " ") ++ m) ++ "]" = a ++ ("- " ++ (m ++ "]")) := by
  simp only [sappend_assoc, dash_space]

/-! ### Helper lemmas about the sign-extended 8-bit displacement -/

theorem displacement_from_byte_neg (d : Nat) (hd : 128 ≤ d % 256) :
    displacement_from_byte (d % 256) = (d % 256 : Int) - 256 := by
  have hb : ((d % 256) >>> 7) &&& 0x1 = 1 := by
    rw [Nat.shiftRight_eq_div_pow, Nat.and_one_is_mod]
    omega
  unfold displacement_from_byte
  rw [if_pos hb]
  have : d % 256 < 256 := Nat.mod_lt _ (by omega)
  omega

theorem displacement_from_byte_natAbs (d : Nat) (hd : 128 ≤ d % 256) :
    (displacement_from_byte (d % 256)).natAbs = 256 - d % 256 := by
  rw [displacement_from_byte_neg d hd]
  have : d % 256 < 256 := Nat.mod_lt _ (by omega)
  omega

theorem displacement_from_byte_not_pos (d : Nat) (hd : 128 ≤ d % 256) :
    ¬(displacement_from_byte (d % 256) > 1) := by
  rw [displacement_from_byte_neg d hd]
  have : d % 256 < 256 := Nat.mod_lt _ (by omega)
  omega

/-- On a sign-extended negative 8-bit displacement, every base template of
`rm_address_calculation_displaced` renders a minus sign followed by the
magnitude `256 - byte`. -/
theorem rm_displaced_minus_shape (r d : Nat) (hr : r < 8) (hd : 128 ≤ d % 256) :
    ∃ base, rm_address_calculation_displaced r (displacement_from_byte (d % 256)) =
      base ++ ("- " ++ (toString (256 - d % 256) ++ "]")) := by
  have hs := displacement_from_byte_not_pos d hd
  have ha := displacement_from_byte_natAbs d hd
  interval_cases r <;>
    · unfold rm_address_calculation_displaced
      rw [if_neg hs, ha]
      exact ⟨_, dash_shape _ _⟩

/-- In `parse_register_or_memory_to_or_from_register`, a mod=1 operand always
resolves through `rm_address_calculation_displaced` applied to the
sign-extended displacement byte, placed as destination or source by the
d-bit, and consumes exactly 3 bytes. -/
theorem rmr_mod1_operand (fb sb d : Nat) (rest : List Nat) (hmd : (sb % 256) >>> 6 = 1) :
    ∃ op reg,
      parse_register_or_memory_to_or_from_register (fb :: sb :: d :: rest) 0 =
        .ok (op ++ " " ++ reg ++ ", "
          ++ rm_address_calculation_displaced ((sb % 256) &&& 0x7)
              (displacement_from_byte (d % 256)), 3)
      ∨ parse_register_or_memory_to_or_from_register (fb :: sb :: d :: rest) 0 =
        .ok (op ++ " "
          ++ rm_address_calculation_displaced ((sb % 256) &&& 0x7)
              (displacement_from_byte (d % 256)) ++ ", " ++ reg, 3) := by
  refine ⟨if (fb % 256) >>> 2 = 0b10010 then "mov"
      else if (fb % 256) >>> 2 = 0b0 then "add"
      else if (fb % 256) >>> 2 = 0b001010 then "sub"
      else if (fb % 256) >>> 2 = 0b001110 then "cmp"
      else "",
    (REGISTER_ENCODINGS.getD ((fb % 256) &&& 0x1) []).getD (((sb % 256) >>> 3) &&& 0x7) "", ?_⟩
  by_cases hd : ((fb % 256) >>> 1) &&& 0x1 = 1
  all_goals rw [Nat.and_one_is_mod] at hd
  · refine Or.inl ?_
    simp [parse_register_or_memory_to_or_from_register, readByte_cons0, readByte_cons1,
      readByte_cons2, hmd, hd]
  · refine Or.inr ?_
    simp [parse_register_or_memory_to_or_from_register, readByte_cons0, readByte_cons1,
      readByte_cons2, hmd, hd]

/-- In `parse_immediate_to_register_or_memory`, an add/sub/cmp mod=1 operand
resolves through `rm_address_calculation_displaced` applied to the
sign-extended displacement byte. -/
theorem pirm_mod1_operand (fb sb d d1 d2 : Nat) (rest : List Nat)
    (hmd : (sb % 256) >>> 6 = 1) (hfb : (fb % 256) >>> 2 = 0b100000)
    (hreg : ((sb % 256) >>> 3) &&& 0x7 = 0b000 ∨ ((sb % 256) >>> 3) &&& 0x7 = 0b101
      ∨ ((sb % 256) >>> 3) &&& 0x7 = 0b111) :
    ∃ (imm : Nat) (c2 : Nat),
      parse_immediate_to_register_or_memory (fb :: sb :: d :: d1 :: d2 :: rest) 0 =
        .ok ((if ((sb % 256) >>> 3) &&& 0x7 = 0b000 then "add "
            else if ((sb % 256) >>> 3) &&& 0x7 = 0b101 then "sub " else "cmp ")
          ++ ((if (fb % 256) &&& 0x1 = 1 then "word" else "byte")
          ++ (" " ++ (rm_address_calculation_displaced ((sb % 256) &&& 0x07)
                (displacement_from_byte (d % 256))
          ++ (", " ++ toString imm)))), c2) := by
  rcases hreg with h | h | h <;>
  · by_cases hw : (fb % 256) &&& 0x1 = 1
    · by_cases hs : ((fb % 256) >>> 1) &&& 0x1 = 0
      all_goals rw [Nat.and_one_is_mod] at hw hs
      · refine ⟨u16_from_le (d1 % 256) (d2 % 256), 5, ?_⟩
        simp [parse_immediate_to_register_or_memory, readByte_cons0, readByte_cons1,
          readByte_cons2, readByte_cons3, readByte_cons4, hmd, hfb, h, hw, hs]
        conv_rhs => repeat rw [← sappend_assoc]
        rfl
      · refine ⟨d1 % 256, 4, ?_⟩
        simp [parse_immediate_to_register_or_memory, readByte_cons0, readByte_cons1,
          readByte_cons2, readByte_cons3, readByte_cons4, hmd, hfb, h, hw, hs]
        conv_rhs => repeat rw [← sappend_assoc]
        rfl
    · rw [Nat.and_one_is_mod] at hw
      refine ⟨d1 % 256, 4, ?_⟩
      simp [parse_immediate_to_register_or_memory, readByte_cons0, readByte_cons1,
        readByte_cons2, readByte_cons3, readByte_cons4, hmd, hfb, h, hw]
      conv_rhs => repeat rw [← sappend_assoc]
      rfl

/-! ### Helper evaluation lemmas for `parse_immediate_to_register` -/

theorem pir_word_eval (b0 lo hi : Nat) (rest : List Nat)
    (hw : ((b0 % 256) >>> 3) &&& 0x1 = 1) :
    parse_immediate_to_register (b0 :: lo :: hi :: rest) 0 =
      .ok ("mov " ++ WORD_REGISTERS.getD ((b0 % 256) &&& 0x07) "" ++ ", "
        ++ toString (lo % 256 + 256 * (hi % 256)), 3) := by
  simp [parse_immediate_to_register, readByte_cons0, readByte_cons1, readByte_cons2, hw,
    u16_from_le]

theorem pir_byte_eval (b0 lo : Nat) (rest : List Nat)
    (hw : ((b0 % 256) >>> 3) &&& 0x1 = 0) :
    parse_immediate_to_register (b0 :: lo :: rest) 0 =
      .ok ("mov " ++ BYTE_REGISTERS.getD ((b0 % 256) &&& 0x07) "" ++ ", "
        ++ toString (lo % 256), 2) := by
  simp [parse_immediate_to_register, readByte_cons0, readByte_cons1, hw]

/-! ### Cursor-advance bounds for every decoder: a successful decode starting
at cursor `c` ends at a cursor strictly beyond `c` and within the buffer. -/

theorem mta_ok_bounds {bytes : List Nat} {c : Nat} {l : String} {c2 : Nat}
    (h : parse_memory_to_accumulator bytes c = .ok (l, c2)) :
    c + 2 ≤ c2 ∧ c2 ≤ bytes.length := by
  unfold parse_memory_to_accumulator at h
  cases h0 : readByte bytes c with
  | error e => rw [h0] at h; simp at h
  | ok fb =>
  rw [h0] at h
  rcases (by omega : fb % 2 = 0 ∨ fb % 2 = 1) with hw | hw <;>
    simp only [Nat.and_one_is_mod, hw, reduceIte] at h
  · cases h1 : readByte bytes (c + 1) with
    | error e => rw [h1] at h; simp at h
    | ok lo =>
      rw [h1] at h
      have := readByte_ok_lt h1
      simp at h
      obtain ⟨-, hc⟩ := h
      omega
  · cases h1 : readByte bytes (c + 1) with
    | error e => rw [h1] at h; simp at h
    | ok lo =>
    rw [h1] at h
    cases h2 : readByte bytes (c + 2) with
    | error e => rw [h2] at h; simp at h
    | ok hi =>
      rw [h2] at h
      have := readByte_ok_lt h2
      simp at h
      obtain ⟨-, hc⟩ := h
      omega

theorem atm_ok_bounds {bytes : List Nat} {c : Nat} {l : String} {c2 : Nat}
    (h : parse_accumulator_to_memory bytes c = .ok (l, c2)) :
    c + 2 ≤ c2 ∧ c2 ≤ bytes.length := by
  unfold parse_accumulator_to_memory at h
  cases h0 : readByte bytes c with
  | error e => rw [h0] at h; simp at h
  | ok fb =>
  rw [h0] at h
  rcases (by omega : fb % 2 = 0 ∨ fb % 2 = 1) with hw | hw <;>
    simp only [Nat.and_one_is_mod, hw, reduceIte] at h
  · cases h1 : readByte bytes (c + 1) with
    | error e => rw [h1] at h; simp at h
    | ok lo =>
      rw [h1] at h
      have := readByte_ok_lt h1
      simp at h
      obtain ⟨-, hc⟩ := h
      omega
  · cases h1 : readByte bytes (c + 1) with
    | error e => rw [h1] at h; simp at h
    | ok lo =>
    rw [h1] at h
    cases h2 : readByte bytes (c + 2) with
    | error e => rw [h2] at h; simp at h
    | ok hi =>
      rw [h2] at h
      have := readByte_ok_lt h2
      simp at h
      obtain ⟨-, hc⟩ := h
      omega

theorem ita_ok_bounds {bytes : List Nat} {c : Nat} {l : String} {c2 : Nat}
    (h : parse_immediate_to_accumulator bytes c = .ok (l, c2)) :
    c + 2 ≤ c2 ∧ c2 ≤ bytes.length := by
  unfold parse_immediate_to_accumulator at h
  cases h0 : readByte bytes c with
  | error e => rw [h0] at h; simp at h
  | ok fb =>
  rw [h0] at h
  rcases (by omega : fb % 2 = 0 ∨ fb % 2 = 1) with hw | hw <;>
    simp only [Nat.and_one_is_mod, hw, reduceIte] at h
  · cases h1 : readByte bytes (c + 1) with
    | error e => rw [h1] at h; simp at h
    | ok lo =>
      rw [h1] at h
      have := readByte_ok_lt h1
      simp at h
      obtain ⟨-, hc⟩ := h
      omega
  · cases h1 : readByte bytes (c + 1) with
    | error e => rw [h1] at h; simp at h
    | ok lo =>
    rw [h1] at h
    cases h2 : readByte bytes (c + 2) with
    | error e => rw [h2] at h; simp at h
    | ok hi =>
      rw [h2] at h
      have := readByte_ok_lt h2
      simp at h
      obtain ⟨-, hc⟩ := h
      omega

theorem pir_ok_bounds {bytes : List Nat} {c : Nat} {l : String} {c2 : Nat}
    (h : parse_immediate_to_register bytes c = .ok (l, c2)) :
    c + 2 ≤ c2 ∧ c2 ≤ bytes.length := by
  unfold parse_immediate_to_register at h
  cases h0 : readByte bytes c with
  | error e => rw [h0] at h; simp at h
  | ok fb =>
  rw [h0] at h
  cases h1 : readByte bytes (c + 1) with
  | error e => rw [h1] at h; simp at h
  | ok lo =>
  rw [h1] at h
  have h1lt := readByte_ok_lt h1
  rcases (by omega : fb >>> 3 % 2 = 0 ∨ fb >>> 3 % 2 = 1) with hw | hw <;>
    simp only [Nat.and_one_is_mod, hw, reduceIte] at h
  · simp at h
    obtain ⟨-, hc⟩ := h
    omega
  · cases h2 : readByte bytes (c + 2) with
    | error e => rw [h2] at h; simp at h
    | ok hi =>
      rw [h2] at h
      have := readByte_ok_lt h2
      simp at h
      obtain ⟨-, hc⟩ := h
      omega

theorem rmr_ok_bounds {bytes : List Nat} {c : Nat} {l : String} {c2 : Nat}
    (h : parse_register_or_memory_to_or_from_register bytes c = .ok (l, c2)) :
    c + 2 ≤ c2 ∧ c2 ≤ bytes.length := by
  unfold parse_register_or_memory_to_or_from_register at h
  cases h0 : readByte bytes c with
  | error e => rw [h0] at h; simp at h
  | ok fb =>
  rw [h0] at h
  cases h1 : readByte bytes (c + 1) with
  | error e => rw [h1] at h; simp at h
  | ok sb =>
  rw [h1] at h
  have h1lt := readByte_ok_lt h1
  have hsb := readByte_ok_lt256 h1
  have hmd : sb >>> 6 = 0 ∨ sb >>> 6 = 1 ∨ sb >>> 6 = 2 ∨ sb >>> 6 = 3 := by
    simp only [Nat.shiftRight_eq_div_pow]
    omega
  rcases hmd with hmd | hmd | hmd | hmd
  · by_cases hrm : sb &&& 0x7 = 6
    · rcases (by omega : fb % 2 = 0 ∨ fb % 2 = 1) with hw | hw <;>
        simp only [hmd, hrm, ne_eq, Nat.and_one_is_mod, hw, reduceIte, reduceCtorEq,
          not_true_eq_false] at h
      · cases h2 : readByte bytes (c + 2) with
        | error e => rw [h2] at h; simp at h
        | ok b2 =>
          rw [h2] at h
          have := readByte_ok_lt h2
          simp at h
          obtain ⟨-, hc⟩ := h
          omega
      · cases h2 : readByte bytes (c + 2) with
        | error e => rw [h2] at h; simp at h
        | ok b2 =>
        rw [h2] at h
        cases h3 : readByte bytes (c + 3) with
        | error e => rw [h3] at h; simp at h
        | ok b3 =>
          rw [h3] at h
          have := readByte_ok_lt h3
          simp at h
          obtain ⟨-, hc⟩ := h
          omega
    · simp only [hmd, ne_eq, hrm, not_false_eq_true, reduceIte] at h
      simp at h
      obtain ⟨-, hc⟩ := h
      omega
  · simp only [hmd, reduceIte, reduceCtorEq] at h
    cases h2 : readByte bytes (c + 2) with
    | error e => rw [h2] at h; simp at h
    | ok b2 =>
      rw [h2] at h
      have := readByte_ok_lt h2
      simp at h
      obtain ⟨-, hc⟩ := h
      omega
  · simp only [hmd, reduceIte, reduceCtorEq] at h
    cases h2 : readByte bytes (c + 2) with
    | error e => rw [h2] at h; simp at h
    | ok b2 =>
    rw [h2] at h
    cases h3 : readByte bytes (c + 3) with
    | error e => rw [h3] at h; simp at h
    | ok b3 =>
      rw [h3] at h
      have := readByte_ok_lt h3
      simp at h
      obtain ⟨-, hc⟩ := h
      omega
  · simp only [hmd, reduceIte, reduceCtorEq] at h
    simp at h
    obtain ⟨-, hc⟩ := h
    omega

set_option maxHeartbeats 1600000 in
theorem pirm_ok_bounds {bytes : List Nat} {c : Nat} {l : String} {c2 : Nat}
    (h : parse_immediate_to_register_or_memory bytes c = .ok (l, c2)) :
    c + 2 ≤ c2 ∧ c2 ≤ bytes.length := by
  unfold parse_immediate_to_register_or_memory at h
  cases h0 : readByte bytes c with
  | error e => rw [h0] at h; simp only [reduceCtorEq] at h
  | ok fb =>
  rw [h0] at h
  cases h1 : readByte bytes (c + 1) with
  | error e => rw [h1] at h; simp only [reduceCtorEq] at h
  | ok sb =>
  rw [h1] at h
  have h1lt := readByte_ok_lt h1
  have hmd : sb >>> 6 &&& 3 = 0 ∨ sb >>> 6 &&& 3 = 1 ∨ sb >>> 6 &&& 3 = 2
      ∨ sb >>> 6 &&& 3 = 3 := by
    have hlt : sb >>> 6 &&& 3 < 4 := Nat.and_lt_two_pow (sb >>> 6) (n := 2) (by norm_num)
    omega
  rcases hmd with hmd | hmd | hmd | hmd
  · by_cases hrm : sb &&& 0x07 = 6
    · rcases (by omega : fb % 2 = 0 ∨ fb % 2 = 1) with hw | hw <;>
        simp only [hmd, hrm, ne_eq, Nat.and_one_is_mod, hw, reduceIte, reduceCtorEq,
          Nat.reduceEqDiff, not_true_eq_false] at h
      · cases h2 : readByte bytes (c + 2) with
        | error e => rw [h2] at h; simp only [reduceCtorEq, reduceIte, Nat.reduceEqDiff, ite_self, false_and, and_false] at h
        | ok b2 =>
        rw [h2] at h
        have h2lt := readByte_ok_lt h2
        try simp only [] at h
        split at h
        · next e heq => simp only [reduceCtorEq] at h
        · next imm c3 heq =>
          cases h4 : readByte bytes (c + 3) with
          | error e =>
            rw [h4] at heq
            simp only [] at heq
            repeat' (split at heq)
            all_goals simp only [reduceCtorEq, Except.ok.injEq, Prod.mk.injEq, ite_self] at heq
          | ok b4 =>
            rw [h4] at heq
            have h4lt := readByte_ok_lt h4
            cases h5 : readByte bytes (c + 4) with
            | error e =>
              rw [h5] at heq
              simp only [] at heq
              repeat' (split at heq)
              all_goals simp only [reduceCtorEq, Except.ok.injEq, Prod.mk.injEq, ite_self] at heq
              all_goals obtain ⟨-, hc3⟩ := heq
              all_goals (split at h <;> (simp only [Except.ok.injEq, Prod.mk.injEq] at h; obtain ⟨-, hc⟩ := h; omega))
            | ok b5 =>
              rw [h5] at heq
              have h5lt := readByte_ok_lt h5
              simp only [] at heq
              repeat' (split at heq)
              all_goals simp only [reduceCtorEq, Except.ok.injEq, Prod.mk.injEq, ite_self] at heq
              all_goals obtain ⟨-, hc3⟩ := heq
              all_goals (split at h <;> (simp only [Except.ok.injEq, Prod.mk.injEq] at h; obtain ⟨-, hc⟩ := h; omega))
      · cases h2 : readByte bytes (c + 2) with
        | error e => rw [h2] at h; simp only [reduceCtorEq, reduceIte, Nat.reduceEqDiff, ite_self, false_and, and_false] at h
        | ok b2 =>
        rw [h2] at h
        cases h3 : readByte bytes (c + 3) with
        | error e => rw [h3] at h; simp only [reduceCtorEq, reduceIte, Nat.reduceEqDiff, ite_self, false_and, and_false] at h
        | ok b3 =>
        rw [h3] at h
        have h3lt := readByte_ok_lt h3
        try simp only [] at h
        split at h
        · next e heq => simp only [reduceCtorEq] at h
        · next imm c3 heq =>
          cases h4 : readByte bytes (c + 4) with
          | error e =>
            rw [h4] at heq
            simp only [] at heq
            repeat' (split at heq)
            all_goals simp only [reduceCtorEq, Except.ok.injEq, Prod.mk.injEq, ite_self] at heq
          | ok b4 =>
            rw [h4] at heq
            have h4lt := readByte_ok_lt h4
            cases h5 : readByte bytes (c + 5) with
            | error e =>
              rw [h5] at heq
              simp only [] at heq
              repeat' (split at heq)
              all_goals simp only [reduceCtorEq, Except.ok.injEq, Prod.mk.injEq, ite_self] at heq
              all_goals obtain ⟨-, hc3⟩ := heq
              all_goals (split at h <;> (simp only [Except.ok.injEq, Prod.mk.injEq] at h; obtain ⟨-, hc⟩ := h; omega))
            | ok b5 =>
              rw [h5] at heq
              have h5lt := readByte_ok_lt h5
              simp only [] at heq
              repeat' (split at heq)
              all_goals simp only [reduceCtorEq, Except.ok.injEq, Prod.mk.injEq, ite_self] at heq
              all_goals obtain ⟨-, hc3⟩ := heq
              all_goals (split at h <;> (simp only [Except.ok.injEq, Prod.mk.injEq] at h; obtain ⟨-, hc⟩ := h; omega))
    · simp only [hmd, hrm, ne_eq, not_false_eq_true, reduceIte, reduceCtorEq,
        Nat.reduceEqDiff] at h
      try simp only [] at h
      split at h
      · next e heq => simp only [reduceCtorEq] at h
      · next imm c3 heq =>
        cases h4 : readByte bytes (c + 2) with
        | error e =>
          rw [h4] at heq
          simp only [] at heq
          repeat' (split at heq)
          all_goals simp only [reduceCtorEq, Except.ok.injEq, Prod.mk.injEq, ite_self] at heq
        | ok b4 =>
          rw [h4] at heq
          have h4lt := readByte_ok_lt h4
          cases h5 : readByte bytes (c + 3) with
          | error e =>
            rw [h5] at heq
            simp only [] at heq
            repeat' (split at heq)
            all_goals simp only [reduceCtorEq, Except.ok.injEq, Prod.mk.injEq, ite_self] at heq
            all_goals obtain ⟨-, hc3⟩ := heq
            all_goals (split at h <;> (simp only [Except.ok.injEq, Prod.mk.injEq] at h; obtain ⟨-, hc⟩ := h; omega))
          | ok b5 =>
            rw [h5] at heq
            have h5lt := readByte_ok_lt h5
            simp only [] at heq
            repeat' (split at heq)
            all_goals simp only [reduceCtorEq, Except.ok.injEq, Prod.mk.injEq, ite_self] at heq
            all_goals obtain ⟨-, hc3⟩ := heq
            all_goals (split at h <;> (simp only [Except.ok.injEq, Prod.mk.injEq] at h; obtain ⟨-, hc⟩ := h; omega))
  · simp only [hmd, reduceIte, reduceCtorEq, Nat.reduceEqDiff] at h
    cases h2 : readByte bytes (c + 2) with
    | error e => rw [h2] at h; simp only [reduceCtorEq, reduceIte, Nat.reduceEqDiff, ite_self, false_and, and_false] at h
    | ok b2 =>
    rw [h2] at h
    have h2lt := readByte_ok_lt h2
    try simp only [] at h
    split at h
    · next e heq => simp only [reduceCtorEq] at h
    · next imm c3 heq =>
      cases h4 : readByte bytes (c + 3) with
      | error e =>
        rw [h4] at heq
        simp only [] at heq
        repeat' (split at heq)
        all_goals simp only [reduceCtorEq, Except.ok.injEq, Prod.mk.injEq, ite_self] at heq
      | ok b4 =>
        rw [h4] at heq
        have h4lt := readByte_ok_lt h4
        cases h5 : readByte bytes (c + 4) with
        | error e =>
          rw [h5] at heq
          simp only [] at heq
          repeat' (split at heq)
          all_goals simp only [reduceCtorEq, Except.ok.injEq, Prod.mk.injEq, ite_self] at heq
          all_goals obtain ⟨-, hc3⟩ := heq
          all_goals (split at h <;> (simp only [Except.ok.injEq, Prod.mk.injEq] at h; obtain ⟨-, hc⟩ := h; omega))
        | ok b5 =>
          rw [h5] at heq
          have h5lt := readByte_ok_lt h5
          simp only [] at heq
          repeat' (split at heq)
          all_goals simp only [reduceCtorEq, Except.ok.injEq, Prod.mk.injEq, ite_self] at heq
          all_goals obtain ⟨-, hc3⟩ := heq
          all_goals (split at h <;> (simp only [Except.ok.injEq, Prod.mk.injEq] at h; obtain ⟨-, hc⟩ := h; omega))
  · simp only [hmd, reduceIte, reduceCtorEq, Nat.reduceEqDiff] at h
    cases h2 : readByte bytes (c + 2) with
    | error e => rw [h2] at h; simp only [reduceCtorEq, reduceIte, Nat.reduceEqDiff, ite_self, false_and, and_false] at h
    | ok b2 =>
    rw [h2] at h
    cases h3 : readByte bytes (c + 3) with
    | error e => rw [h3] at h; simp only [reduceCtorEq, reduceIte, Nat.reduceEqDiff, ite_self, false_and, and_false] at h
    | ok b3 =>
    rw [h3] at h
    have h3lt := readByte_ok_lt h3
    try simp only [] at h
    split at h
    · next e heq => simp only [reduceCtorEq] at h
    · next imm c3 heq =>
      cases h4 : readByte bytes (c + 4) with
      | error e =>
        rw [h4] at heq
        simp only [] at heq
        repeat' (split at heq)
        all_goals simp only [reduceCtorEq, Except.ok.injEq, Prod.mk.injEq, ite_self] at heq
      | ok b4 =>
        rw [h4] at heq
        have h4lt := readByte_ok_lt h4
        cases h5 : readByte bytes (c + 5) with
        | error e =>
          rw [h5] at heq
          simp only [] at heq
          repeat' (split at heq)
          all_goals simp only [reduceCtorEq, Except.ok.injEq, Prod.mk.injEq, ite_self] at heq
          all_goals obtain ⟨-, hc3⟩ := heq
          all_goals (split at h <;> (simp only [Except.ok.injEq, Prod.mk.injEq] at h; obtain ⟨-, hc⟩ := h; omega))
        | ok b5 =>
          rw [h5] at heq
          have h5lt := readByte_ok_lt h5
          simp only [] at heq
          repeat' (split at heq)
          all_goals simp only [reduceCtorEq, Except.ok.injEq, Prod.mk.injEq, ite_self] at heq
          all_goals obtain ⟨-, hc3⟩ := heq
          all_goals (split at h <;> (simp only [Except.ok.injEq, Prod.mk.injEq] at h; obtain ⟨-, hc⟩ := h; omega))
  · rcases (by omega : fb % 2 = 0 ∨ fb % 2 = 1) with hw | hw <;>
      simp only [hmd, Nat.and_one_is_mod, hw, reduceIte, reduceCtorEq, Nat.reduceEqDiff] at h
    try simp only [] at h
    split at h
    · next e heq => simp only [reduceCtorEq] at h
    · next imm c3 heq =>
      cases h4 : readByte bytes (c + 2) with
      | error e =>
        rw [h4] at heq
        simp only [] at heq
        repeat' (split at heq)
        all_goals simp only [reduceCtorEq, Except.ok.injEq, Prod.mk.injEq, ite_self] at heq
      | ok b4 =>
        rw [h4] at heq
        have h4lt := readByte_ok_lt h4
        cases h5 : readByte bytes (c + 3) with
        | error e =>
          rw [h5] at heq
          simp only [] at heq
          repeat' (split at heq)
          all_goals simp only [reduceCtorEq, Except.ok.injEq, Prod.mk.injEq, ite_self] at heq
          all_goals obtain ⟨-, hc3⟩ := heq
          all_goals (split at h <;> (simp only [Except.ok.injEq, Prod.mk.injEq] at h; obtain ⟨-, hc⟩ := h; omega))
        | ok b5 =>
          rw [h5] at heq
          have h5lt := readByte_ok_lt h5
          simp only [] at heq
          repeat' (split at heq)
          all_goals simp only [reduceCtorEq, Except.ok.injEq, Prod.mk.injEq, ite_self] at heq
          all_goals obtain ⟨-, hc3⟩ := heq
          all_goals (split at h <;> (simp only [Except.ok.injEq, Prod.mk.injEq] at h; obtain ⟨-, hc⟩ := h; omega))
    try simp only [] at h
    split at h
    · next e heq => simp only [reduceCtorEq] at h
    · next imm c3 heq =>
      cases h4 : readByte bytes (c + 2) with
      | error e =>
        rw [h4] at heq
        simp only [] at heq
        repeat' (split at heq)
        all_goals simp only [reduceCtorEq, Except.ok.injEq, Prod.mk.injEq, ite_self] at heq
      | ok b4 =>
        rw [h4] at heq
        have h4lt := readByte_ok_lt h4
        cases h5 : readByte bytes (c + 3) with
        | error e =>
          rw [h5] at heq
          simp only [] at heq
          repeat' (split at heq)
          all_goals simp only [reduceCtorEq, Except.ok.injEq, Prod.mk.injEq, ite_self] at heq
          all_goals obtain ⟨-, hc3⟩ := heq
          all_goals (split at h <;> (simp only [Except.ok.injEq, Prod.mk.injEq] at h; obtain ⟨-, hc⟩ := h; omega))
        | ok b5 =>
          rw [h5] at heq
          have h5lt := readByte_ok_lt h5
          simp only [] at heq
          repeat' (split at heq)
          all_goals simp only [reduceCtorEq, Except.ok.injEq, Prod.mk.injEq, ite_self] at heq
          all_goals obtain ⟨-, hc3⟩ := heq
          all_goals (split at h <;> (simp only [Except.ok.injEq, Prod.mk.injEq] at h; obtain ⟨-, hc⟩ := h; omega))

theorem decodeStep_ok_bounds {bin : List Nat} {c : Nat} {l : String} {c2 : Nat}
    (h : decodeStep bin c = .ok (l, c2)) : c < c2 ∧ c2 ≤ bin.length := by
  unfold decodeStep at h
  cases h0 : readByte bin c with
  | error e => rw [h0] at h; simp only [reduceCtorEq] at h
  | ok b0 =>
  rw [h0] at h
  cases h1 : readByte bin (c + 1) with
  | error e => rw [h1] at h; simp only [reduceCtorEq] at h
  | ok b1 =>
  rw [h1] at h
  simp only [] at h
  cases ho : as_opcode_enum b0 b1 with
  | none => rw [ho] at h; simp only [reduceCtorEq] at h
  | some op =>
    rw [ho] at h
    cases op <;> try simp only [] at h
    all_goals first
      | simp only [reduceCtorEq] at h
      | (have hb := rmr_ok_bounds h; exact ⟨by omega, hb.2⟩)
      | (have hb := pir_ok_bounds h; exact ⟨by omega, hb.2⟩)
      | (have hb := pirm_ok_bounds h; exact ⟨by omega, hb.2⟩)
      | (have hb := mta_ok_bounds h; exact ⟨by omega, hb.2⟩)
      | (have hb := atm_ok_bounds h; exact ⟨by omega, hb.2⟩)
      | (have hb := ita_ok_bounds h; exact ⟨by omega, hb.2⟩)

theorem parseBinAux_ne_none (bin : List Nat) : ∀ (fuel c : Nat) (acc : String),
    bin.length - c ≤ fuel → parseBinAux bin fuel c acc ≠ none := by
  intro fuel
  induction fuel with
  | zero =>
    intro c acc hf
    unfold parseBinAux
    rw [if_neg (by omega)]
    simp
  | succ n ih =>
    intro c acc hf
    unfold parseBinAux
    by_cases hc : c < bin.length
    · rw [if_pos hc]
      cases hs : decodeStep bin c with
      | error e => simp
      | ok p =>
        obtain ⟨line, c2⟩ := p
        have hb := decodeStep_ok_bounds hs
        exact ih c2 _ (by omega)
    · rw [if_neg hc]
      simp

theorem parseBinAux_done (bin : List Nat) (fuel c : Nat) (acc : String)
    (h : bin.length ≤ c) : parseBinAux bin fuel c acc = some (.ok acc) := by
  cases fuel <;> (unfold parseBinAux; rw [if_neg (by omega)])


/-! ### Claim theorems -/

/-- Claim C1 (code bug): the claim states that a mod=0 / rm=6 operand always
consumes exactly 2 displacement bytes regardless of the w-bit. In the code
the byte count follows the w-bit: with w=0 only ONE displacement byte is
consumed (and sign-extended), e.g. bytes `8A 06 10 20` yield the operand
`[16]` with the cursor at 3, while the same encoding with w=1 (`8B ...`)
consumes two bytes and yields `[8208]` with the cursor at 4. The immediate
decoder shows the same w-dependence. -/
theorem c1_mod0_rm6_w_dependent :
    parse_register_or_memory_to_or_from_register [0x8A, 0x06, 0x10, 0x20] 0 =
      .ok (" al, [16]", 3)
    ∧ parse_register_or_memory_to_or_from_register [0x8B, 0x06, 0x10, 0x20] 0 =
      .ok (" ax, [8208]", 4)
    ∧ parse_immediate_to_register_or_memory [0x80, 0x06, 0x10, 0x22] 0 =
      .ok ("add byte [16], 34", 4) :=
  ⟨rfl, rfl, rfl⟩

/-- Claim C2 (code bug): the claim states that an 0x80–0x83 opcode with a
reg-subfield other than 000/101/111 fails loudly. In the code the
classifier falls through to the unconditional `bytes[0] >> 2 == 0b100000`
check and returns `SubImmediateToRegisterOrMemory`, and the decoder then
emits an EMPTY line: the pass completes successfully with output
`"bits 16\n\n\n"` for input `80 08 22` (reg-subfield 001). -/
theorem c2_unhandled_subfield_silent :
    as_opcode_enum 0x80 0x08 = some Opcode.SubImmediateToRegisterOrMemory
    ∧ parse_immediate_to_register_or_memory [0x80, 0x08, 0x22] 0 = .ok ("", 3)
    ∧ parse_bin [0x80, 0x08, 0x22] = .ok "bits 16\n\n\n" :=
  ⟨rfl, rfl, rfl⟩

/-- Claim C3 counterexample: for input `83 FE 02` the destination is the
register `si` (mod = 0xFE >>> 6 = 3), yet the rendered line is
`cmp word si, 2` — the size qualifier IS emitted, contradicting the claim
that no qualifier appears when the destination is a register. (This is the
behaviour the repository's own test `comp_immediate_with_register`
expects.) -/
theorem c3_register_destination_has_qualifier :
    parse_immediate_to_register_or_memory [0x83, 0xFE, 0x02] 0 = .ok ("cmp word si, 2", 3)
    ∧ (0xFE : Nat) >>> 6 = 3 :=
  ⟨rfl, rfl⟩

/-- Claim C3 (amended): in the 0x80–0x83 add/sub/cmp immediate forms the
`word`/`byte` size qualifier is ALWAYS emitted — chosen by the w-bit —
regardless of whether the destination operand is a register (mod=3) or
memory. -/
theorem c3_qualifier_always_for_arith_group (fb sb b2 b3 b4 b5 : Nat) (rest : List Nat)
    (hfb : (fb % 256) >>> 2 = 0b100000)
    (hreg : ((sb % 256) >>> 3) &&& 0x7 = 0b000 ∨ ((sb % 256) >>> 3) &&& 0x7 = 0b101
      ∨ ((sb % 256) >>> 3) &&& 0x7 = 0b111) :
    ∃ (imm : Nat) (rm : String) (c2 : Nat),
      parse_immediate_to_register_or_memory (fb :: sb :: b2 :: b3 :: b4 :: b5 :: rest) 0 =
        .ok ((if ((sb % 256) >>> 3) &&& 0x7 = 0b000 then "add "
            else if ((sb % 256) >>> 3) &&& 0x7 = 0b101 then "sub " else "cmp ")
          ++ (if (fb % 256) &&& 0x1 = 1 then "word" else "byte")
          ++ " " ++ rm ++ ", " ++ toString imm, c2) := by
  have hm4 : (sb % 256) >>> 6 &&& 3 = 0 ∨ (sb % 256) >>> 6 &&& 3 = 1
      ∨ (sb % 256) >>> 6 &&& 3 = 2 ∨ (sb % 256) >>> 6 &&& 3 = 3 := by
    have hlt : (sb % 256) >>> 6 &&& 3 < 4 :=
      Nat.and_lt_two_pow ((sb % 256) >>> 6) (n := 2) (by norm_num)
    omega
  rcases hreg with h | h | h <;>
  rcases hm4 with hmd | hmd | hmd | hmd <;>
  by_cases hrm : (sb % 256) &&& 0x07 = 6 <;>
  rcases (by omega : fb % 256 % 2 = 0 ∨ fb % 256 % 2 = 1) with hw | hw <;>
  rcases (by omega : (fb % 256) >>> 1 % 2 = 0 ∨ (fb % 256) >>> 1 % 2 = 1) with hs | hs <;>
  · simp [parse_immediate_to_register_or_memory, readByte_cons0, readByte_cons1,
      readByte_cons2, readByte_cons3, readByte_cons4, readByte_cons5,
      hfb, h, hmd, hrm, hw, hs, -String.reduceAppend]
    repeat apply Exists.intro
    rfl

/-- Claim C3 (amended) witness at the concrete encoding `83 FE 02 00 00 00`:
the rendered line carries the `word` qualifier with a register destination. -/
theorem c3_qualifier_witness :
    ∃ (imm : Nat) (rm : String) (c2 : Nat),
      parse_immediate_to_register_or_memory [0x83, 0xFE, 0x02, 0x00, 0x00, 0x00] 0 =
        .ok ("cmp " ++ "word" ++ " " ++ rm ++ ", " ++ toString imm, c2) :=
  c3_qualifier_always_for_arith_group 0x83 0xFE 0x02 0x00 0x00 0x00 []
    (by decide) (Or.inr (Or.inr (by decide)))

/-- Claim C4 counterexample: decoding `05 E8 03 F4 00` fails at offset 3 on
the unrecognized byte 0xF4, but the failure message is exactly
`Unrecognized opcode. 11110100`: it contains no digit `3`, hence does not
name the offset. A buffer holding only `F4` does not even reach the
classifier: reading the second byte panics (index out of bounds). -/
theorem c4_message_lacks_offset :
    parse_bin [0x05, 0xE8, 0x03, 0xF4, 0x00] =
      .error (.unrecognizedOpcode "Unrecognized opcode. 11110100")
    ∧ ("Unrecognized opcode. 11110100").data.all (fun c => c ≠ '3')
    ∧ parse_bin [0xF4] = .error .indexOutOfBounds :=
  ⟨rfl, by decide, rfl⟩

/-- Claim C4 (amended): whenever at least two bytes remain and the next byte
matches no opcode pattern, the whole pass aborts with the message
`Unrecognized opcode. ` followed by the 8-digit binary pattern of the byte;
the offset is not part of the message. -/
theorem c4_unrecognized_opcode_message (b0 b1 : Nat) (rest : List Nat)
    (h : as_opcode_enum (b0 % 256) (b1 % 256) = none) :
    parse_bin (b0 :: b1 :: rest) =
      .error (.unrecognizedOpcode ("Unrecognized opcode. " ++ toBinary8 (b0 % 256))) := by
  have hlen : (b0 :: b1 :: rest).length = rest.length + 2 := by simp
  unfold parse_bin
  rw [hlen]
  show (parseBinAux (b0 :: b1 :: rest) (rest.length + 1 + 1) 0 "bits 16\n\n").getD _ = _
  unfold parseBinAux
  rw [if_pos (by simp)]
  simp [decodeStep, readByte_cons0, readByte_cons1, h]

/-- Claim C4 (amended) witness: a buffer starting with 0xF4 and one more
byte aborts with the pattern-only message. -/
theorem c4_unrecognized_witness :
    parse_bin [0xF4, 0x00] = .error (.unrecognizedOpcode "Unrecognized opcode. 11110100") :=
  c4_unrecognized_opcode_message 0xF4 0x00 [] (by decide)

/-- Claim C5 (code bug): the claim states mod=1/2 displacements render with
`+` when non-negative and that a zero displacement is suppressed. The code
chooses `+` only when the displacement is strictly greater than 1, so the
non-negative displacements 0 and 1 render with `-`: `03 40 01`
(add, mod=1, disp=+1) renders `add ax, [bx + si - 1]` and `03 40 00`
(disp=0) renders `add ax, [bx + si - 0]`. -/
theorem c5_sign_rendering_at_zero_and_one :
    rm_address_calculation_displaced 0 0 = "[bx + si - 0]"
    ∧ rm_address_calculation_displaced 0 1 = "[bx + si - 1]"
    ∧ parse_register_or_memory_to_or_from_register [0x03, 0x40, 0x01] 0 =
        .ok ("add ax, [bx + si - 1]", 3)
    ∧ parse_register_or_memory_to_or_from_register [0x03, 0x40, 0x00] 0 =
        .ok ("add ax, [bx + si - 0]", 3) :=
  ⟨rfl, rfl, rfl, rfl⟩

/-- Claim C6: an 8-bit mod=1 displacement byte with bit 7 set is
sign-extended two's-complement (value `byte - 256`), and both decoders
render the operand through `rm_address_calculation_displaced`, which then
shows a `-` sign with printed magnitude `256 - byte`. -/
theorem c6_negative_displacement_rendering :
    (∀ d : Nat, 128 ≤ d % 256 →
      displacement_from_byte (d % 256) = (d % 256 : Int) - 256)
    ∧ (∀ r d : Nat, r < 8 → 128 ≤ d % 256 →
      ∃ base, rm_address_calculation_displaced r (displacement_from_byte (d % 256)) =
        base ++ ("- " ++ (toString (256 - d % 256) ++ "]")))
    ∧ (∀ fb sb d : Nat, ∀ rest : List Nat, (sb % 256) >>> 6 = 1 →
      ∃ op reg,
        parse_register_or_memory_to_or_from_register (fb :: sb :: d :: rest) 0 =
          .ok (op ++ " " ++ reg ++ ", "
            ++ rm_address_calculation_displaced ((sb % 256) &&& 0x7)
                (displacement_from_byte (d % 256)), 3)
        ∨ parse_register_or_memory_to_or_from_register (fb :: sb :: d :: rest) 0 =
          .ok (op ++ " "
            ++ rm_address_calculation_displaced ((sb % 256) &&& 0x7)
                (displacement_from_byte (d % 256)) ++ ", " ++ reg, 3))
    ∧ (∀ fb sb d d1 d2 : Nat, ∀ rest : List Nat, (sb % 256) >>> 6 = 1 →
      (fb % 256) >>> 2 = 0b100000 →
      (((sb % 256) >>> 3) &&& 0x7 = 0b000 ∨ ((sb % 256) >>> 3) &&& 0x7 = 0b101
        ∨ ((sb % 256) >>> 3) &&& 0x7 = 0b111) →
      ∃ (imm : Nat) (c2 : Nat),
        parse_immediate_to_register_or_memory (fb :: sb :: d :: d1 :: d2 :: rest) 0 =
          .ok ((if ((sb % 256) >>> 3) &&& 0x7 = 0b000 then "add "
              else if ((sb % 256) >>> 3) &&& 0x7 = 0b101 then "sub " else "cmp ")
            ++ ((if (fb % 256) &&& 0x1 = 1 then "word" else "byte")
            ++ (" " ++ (rm_address_calculation_displaced ((sb % 256) &&& 0x07)
                  (displacement_from_byte (d % 256))
            ++ (", " ++ toString imm)))), c2)) :=
  ⟨displacement_from_byte_neg,
   fun r d hr hd => rm_displaced_minus_shape r d hr hd,
   fun fb sb d rest hmd => rmr_mod1_operand fb sb d rest hmd,
   fun fb sb d d1 d2 rest hmd hfb hreg => pirm_mod1_operand fb sb d d1 d2 rest hmd hfb hreg⟩

/-- Claim C6 witness at the displacement byte 0xE2 = 226 (bit 7 set):
sign-extended value −30, rendered magnitude 30, in both decoders at the
concrete encodings `03 40 E2` and `83 40 E2 05 00`. -/
theorem c6_negative_displacement_witness :
    displacement_from_byte (226 % 256) = ((226 % 256 : Nat) : Int) - 256
    ∧ (∃ base, rm_address_calculation_displaced 0 (displacement_from_byte (226 % 256)) =
        base ++ ("- " ++ (toString (256 - 226 % 256) ++ "]")))
    ∧ (∃ op reg,
        parse_register_or_memory_to_or_from_register [0x03, 0x40, 226] 0 =
          .ok (op ++ " " ++ reg ++ ", "
            ++ rm_address_calculation_displaced ((0x40 % 256) &&& 0x7)
                (displacement_from_byte (226 % 256)), 3)
        ∨ parse_register_or_memory_to_or_from_register [0x03, 0x40, 226] 0 =
          .ok (op ++ " "
            ++ rm_address_calculation_displaced ((0x40 % 256) &&& 0x7)
                (displacement_from_byte (226 % 256)) ++ ", " ++ reg, 3))
    ∧ (∃ (imm : Nat) (c2 : Nat),
        parse_immediate_to_register_or_memory [0x83, 0x40, 226, 0x05, 0x00] 0 =
          .ok ((if ((0x40 % 256) >>> 3) &&& 0x7 = 0b000 then "add "
              else if ((0x40 % 256) >>> 3) &&& 0x7 = 0b101 then "sub " else "cmp ")
            ++ ((if (0x83 % 256) &&& 0x1 = 1 then "word" else "byte")
            ++ (" " ++ (rm_address_calculation_displaced ((0x40 % 256) &&& 0x07)
                  (displacement_from_byte (226 % 256))
            ++ (", " ++ toString imm)))), c2)) := by
  have h := c6_negative_displacement_rendering
  exact ⟨h.1 226 (by decide), h.2.1 0 226 (by decide) (by decide),
    h.2.2.1 0x03 0x40 226 [] (by decide),
    h.2.2.2 0x83 0x40 226 0x05 0x00 [] (by decide) (by decide) (Or.inl (by decide))⟩

/-- Claim C7: an immediate-to-register instruction renders the immediate as
the little-endian concatenation of the two consumed data bytes when the
w-bit selects word width, and as the single consumed byte verbatim when it
selects byte width; the register name comes from the matching width table. -/
theorem c7_immediate_to_register_value :
    (∀ (b0 lo hi : Nat) (rest : List Nat), ((b0 % 256) >>> 3) &&& 0x1 = 1 →
      parse_immediate_to_register (b0 :: lo :: hi :: rest) 0 =
        .ok ("mov " ++ WORD_REGISTERS.getD ((b0 % 256) &&& 0x07) "" ++ ", "
          ++ toString (lo % 256 + 256 * (hi % 256)), 3))
    ∧ (∀ (b0 lo : Nat) (rest : List Nat), ((b0 % 256) >>> 3) &&& 0x1 = 0 →
      parse_immediate_to_register (b0 :: lo :: rest) 0 =
        .ok ("mov " ++ BYTE_REGISTERS.getD ((b0 % 256) &&& 0x07) "" ++ ", "
          ++ toString (lo % 256), 2)) :=
  ⟨pir_word_eval, pir_byte_eval⟩

/-- Claim C7 witness: `B8 E8 03` renders `mov ax, 1000` (little-endian
0x03E8), and `B0 05` renders `mov al, 5`. -/
theorem c7_immediate_to_register_witness :
    parse_immediate_to_register [0xB8, 0xE8, 0x03] 0 = .ok ("mov ax, 1000", 3)
    ∧ parse_immediate_to_register [0xB0, 0x05] 0 = .ok ("mov al, 5", 2) :=
  ⟨c7_immediate_to_register_value.1 0xB8 0xE8 0x03 [] (by decide),
   c7_immediate_to_register_value.2 0xB0 0x05 [] (by decide)⟩

/-- Claim C8: every successful decode step advances the cursor strictly
(by at least one byte) and never beyond the buffer; with fuel at least
`length - cursor` the decode loop never runs out of fuel (so the pass over
a finite buffer terminates); and the loop stops, successfully, exactly when
the cursor has reached the buffer length. -/
theorem c8_cursor_advances_and_terminates :
    (∀ (bin : List Nat) (c : Nat) (line : String) (c2 : Nat),
      decodeStep bin c = .ok (line, c2) → c < c2 ∧ c2 ≤ bin.length)
    ∧ (∀ (bin : List Nat) (fuel c : Nat) (acc : String),
      bin.length - c ≤ fuel → parseBinAux bin fuel c acc ≠ none)
    ∧ (∀ (bin : List Nat) (fuel c : Nat) (acc : String),
      bin.length ≤ c → parseBinAux bin fuel c acc = some (.ok acc)) :=
  ⟨fun _ _ _ _ h => decodeStep_ok_bounds h,
   fun bin => parseBinAux_ne_none bin,
   fun bin fuel c acc h => parseBinAux_done bin fuel c acc h⟩

/-- Claim C8 witness: one concrete step (`B0 05`, `mov al, 5`) advances the
cursor from 0 to 2 = buffer length; the loop with exactly enough fuel does
not run out; and a loop started at the end returns the accumulator. -/
theorem c8_cursor_witness :
    ((0 : Nat) < 2 ∧ 2 ≤ ([0xB0, 0x05] : List Nat).length)
    ∧ parseBinAux [0xB0, 0x05] 2 0 "bits 16\n\n" ≠ none
    ∧ parseBinAux [0xB0, 0x05] 7 2 "x" = some (.ok "x") := by
  have h := c8_cursor_advances_and_terminates
  exact ⟨h.1 [0xB0, 0x05] 0 "mov al, 5" 2 rfl,
    h.2.1 [0xB0, 0x05] 2 0 "bits 16\n\n" (by decide),
    h.2.2 [0xB0, 0x05] 7 2 "x" (by decide)⟩

/-- Claim C9 counterexample: the one-byte input `8E` begins with a
segment-register move opcode, but the pass aborts with an index-out-of-
bounds panic while fetching the second byte — not with the unimplemented-
operation failure the claim promises for every input beginning with 0x8E. -/
theorem c9_single_byte_segment_input :
    parse_bin [0x8E] = .error DecodeErr.indexOutOfBounds
    ∧ DecodeErr.indexOutOfBounds ≠ DecodeErr.unimplementedOp :=
  ⟨rfl, by decide⟩

/-- Claim C9 (amended): every input of length at least 2 beginning with 0x8E
or 0x8C is classified as a segment-register move and aborts the whole pass
with the unimplemented-operation failure, which is a different constructor
from every UnrecognizedOpcode failure; no listing is produced. -/
theorem c9_segment_moves_unimplemented (b0 b1 : Nat) (rest : List Nat)
    (h : b0 % 256 = 0x8E ∨ b0 % 256 = 0x8C) :
    parse_bin (b0 :: b1 :: rest) = .error DecodeErr.unimplementedOp
    ∧ (∀ s, DecodeErr.unimplementedOp ≠ DecodeErr.unrecognizedOpcode s) := by
  constructor
  · have hlen : (b0 :: b1 :: rest).length = rest.length + 2 := by simp
    unfold parse_bin
    rw [hlen]
    show (parseBinAux (b0 :: b1 :: rest) (rest.length + 1 + 1) 0 "bits 16\n\n").getD _ = _
    unfold parseBinAux
    rw [if_pos (by simp)]
    rcases h with h | h <;>
      simp [decodeStep, readByte_cons0, readByte_cons1, as_opcode_enum, h]
  · intro s hcon
    cases hcon

/-- Claim C9 (amended) witness: `8E 00` aborts with the unimplemented-
operation failure, distinct from an UnrecognizedOpcode failure. -/
theorem c9_segment_moves_witness :
    parse_bin [0x8E, 0x00] = .error DecodeErr.unimplementedOp
    ∧ DecodeErr.unimplementedOp ≠ DecodeErr.unrecognizedOpcode "Unrecognized opcode. 10001110" :=
  ⟨(c9_segment_moves_unimplemented 0x8E 0x00 [] (Or.inl (by decide))).1,
   (c9_segment_moves_unimplemented 0x8E 0x00 [] (Or.inl (by decide))).2 _⟩

/-- Claim C10 (implicit): the byte-width immediate-to-accumulator form
renders the immediate as a signed two's-complement 8-bit value (`04 E2`
renders `add al, -30`; the value always lies in −128..127), whereas the
word-width form and both immediate-to-register forms render an unsigned
value in 0..65535. -/
theorem c10_accumulator_signed_rendering :
    parse_immediate_to_accumulator [0x04, 0xE2] 0 = .ok ("add al, -30", 2)
    ∧ (∀ (b0 d : Nat) (rest : List Nat), (b0 % 256) &&& 0x1 = 0 →
        (∃ op, parse_immediate_to_accumulator (b0 :: d :: rest) 0 =
          .ok (op ++ " al, " ++ toString (i8_cast (d % 256)), 2))
        ∧ -128 ≤ i8_cast (d % 256) ∧ i8_cast (d % 256) < 128)
    ∧ (∀ (b0 lo hi : Nat) (rest : List Nat), (b0 % 256) &&& 0x1 = 1 →
        (∃ op, parse_immediate_to_accumulator (b0 :: lo :: hi :: rest) 0 =
          .ok (op ++ " ax, " ++ toString (u16_from_le (lo % 256) (hi % 256)), 3))
        ∧ u16_from_le (lo % 256) (hi % 256) < 65536)
    ∧ (∀ (b0 lo hi : Nat) (rest : List Nat), ((b0 % 256) >>> 3) &&& 0x1 = 1 →
        parse_immediate_to_register (b0 :: lo :: hi :: rest) 0 =
          .ok ("mov " ++ WORD_REGISTERS.getD ((b0 % 256) &&& 0x07) "" ++ ", "
            ++ toString (lo % 256 + 256 * (hi % 256)), 3)
        ∧ lo % 256 + 256 * (hi % 256) < 65536)
    ∧ (∀ (b0 lo : Nat) (rest : List Nat), ((b0 % 256) >>> 3) &&& 0x1 = 0 →
        parse_immediate_to_register (b0 :: lo :: rest) 0 =
          .ok ("mov " ++ BYTE_REGISTERS.getD ((b0 % 256) &&& 0x07) "" ++ ", "
            ++ toString (lo % 256), 2)
        ∧ lo % 256 < 65536) := by
  refine ⟨rfl, ?_, ?_, ?_, ?_⟩
  · intro b0 d rest hw
    refine ⟨⟨?_, ?_⟩, ?_, ?_⟩
    · exact if (b0 % 256) >>> 1 = 0b0010110 then "sub"
        else if (b0 % 256) >>> 1 = 0b0000010 then "add"
        else if (b0 % 256) >>> 1 = 0b0011110 then "cmp"
        else ""
    · simp [parse_immediate_to_accumulator, readByte_cons0, readByte_cons1, hw]
    · unfold i8_cast
      split <;> omega
    · unfold i8_cast
      split <;> omega
  · intro b0 lo hi rest hw
    refine ⟨⟨?_, ?_⟩, ?_⟩
    · exact if (b0 % 256) >>> 1 = 0b0010110 then "sub"
        else if (b0 % 256) >>> 1 = 0b0000010 then "add"
        else if (b0 % 256) >>> 1 = 0b0011110 then "cmp"
        else ""
    · simp [parse_immediate_to_accumulator, readByte_cons0, readByte_cons1, readByte_cons2, hw]
    · unfold u16_from_le
      omega
  · intro b0 lo hi rest hw
    exact ⟨pir_word_eval b0 lo hi rest hw, by omega⟩
  · intro b0 lo rest hw
    exact ⟨pir_byte_eval b0 lo rest hw, by omega⟩

/-- Claim C10 witness: `2C 09` renders `sub al, 9` (signed byte form),
`3D E8 03` renders `cmp ax, 1000` (unsigned word form), `B8 E8 03` renders
`mov ax, 1000` and `B0 05` renders `mov al, 5` (unsigned register forms). -/
theorem c10_accumulator_signed_witness :
    ((∃ op, parse_immediate_to_accumulator [0x2C, 0x09] 0 =
        .ok (op ++ " al, " ++ toString (i8_cast (0x09 % 256)), 2))
      ∧ -128 ≤ i8_cast (0x09 % 256) ∧ i8_cast (0x09 % 256) < 128)
    ∧ ((∃ op, parse_immediate_to_accumulator [0x3D, 0xE8, 0x03] 0 =
        .ok (op ++ " ax, " ++ toString (u16_from_le (0xE8 % 256) (0x03 % 256)), 3))
      ∧ u16_from_le (0xE8 % 256) (0x03 % 256) < 65536)
    ∧ (parse_immediate_to_register [0xB8, 0xE8, 0x03] 0 =
        .ok ("mov ax, 1000", 3) ∧ 0xE8 % 256 + 256 * (0x03 % 256) < 65536)
    ∧ (parse_immediate_to_register [0xB0, 0x05] 0 =
        .ok ("mov al, 5", 2) ∧ 0x05 % 256 < 65536) := by
  have h := c10_accumulator_signed_rendering
  exact ⟨h.2.1 0x2C 0x09 [] (by decide), h.2.2.1 0x3D 0xE8 0x03 [] (by decide),
    h.2.2.2.1 0xB8 0xE8 0x03 [] (by decide), h.2.2.2.2 0xB0 0x05 [] (by decide)⟩
